import Mathlib

/-!
Shallow embedding of `src/video2x/decoder.py` (class `VideoDecoder`) and
verification of the specification's claims about it.

Modelling conventions:
* Raw bytes are `Nat`s; the decode process's standard-output stream is the
  `List Nat` of all bytes it will ever produce, and `stdout.read(n)` on a
  buffered pipe returns `min n remaining` bytes (`List.take`/`List.drop`),
  returning fewer than `n` bytes only at end of stream.
* `PIL.Image` objects are the `Image` structure below; `Image.frombytes`
  raises `ValueError` ("not enough image data") on a buffer shorter than
  `3 * width * height`, modelled with `Except`.
* The `while self.running` loop of `VideoDecoder.run` is `runLoop`, written
  with a fuel argument for structural recursion; `VideoDecoder.runThread`
  supplies `stream.length + 1` fuel, which is always sufficient because every
  continuing iteration consumes at least one byte of the stream.
* Exceptions raised by the primitives inside the loop body are injected
  through explicit schedules (`readFaults`, `putFaults`, association lists
  from the iteration index to the exception raised there); the short-frame
  `ValueError` arises from the data itself.  The two `except` clauses of
  `run` are `handleExc`: a `ValueError` is logged and breaks the loop
  without being stored, any other exception is stored in `self.exception`.
* `stop()` may be called concurrently; its effect on the loop is that some
  iteration-boundary check of `self.running` starts seeing `False`.  The
  parameter `stopFrom = some s` means the check before iteration `s` is the
  first one to observe the cleared flag (so the request was made while
  iteration `s - 1` was in flight); `none` means `stop()` is never called.
* `queue.put` appends to a list that records the enqueue order (the shared
  FIFO queue as seen by this single producer).
-/

namespace Video2x

/-- One RGB pixel, three bytes, as stored by PIL mode "RGB". -/
structure Pixel where
  r : Nat
  g : Nat
  b : Nat
deriving DecidableEq

/-- A PIL image produced by `Image.frombytes("RGB", (width, height), buffer)`:
the fixed geometry plus the interleaved pixel data. -/
structure Image where
  width : Nat
  height : Nat
  pixels : List Pixel
deriving DecidableEq

/-- Group an interleaved byte buffer into RGB pixels, three bytes per pixel
(the raw "RGB" layout PIL stores). -/
def groupRGB : List Nat → List Pixel
  | r :: g :: b :: rest => { r := r, g := g, b := b } :: groupRGB rest
  | _ => []

/-- Serialize pixels back to the interleaved byte layout (PIL `tobytes`). -/
def bytesOfPixels : List Pixel → List Nat
  | [] => []
  | p :: ps => p.r :: p.g :: p.b :: bytesOfPixels ps

/-- PIL `Image.tobytes()`: the raw interleaved bytes of the image. -/
def Image.tobytes (img : Image) : List Nat :=
  bytesOfPixels img.pixels

/-- Python exception values that can arise in `VideoDecoder`. -/
inductive PyExc where
  /-- `ValueError`, e.g. PIL's "not enough image data". -/
  | valueError
  /-- An `OSError`, e.g. an I/O fault while reading, or `FileNotFoundError`
  when `subprocess.Popen` cannot start the binary. -/
  | osError
  /-- Any other exception class. -/
  | runtimeError
deriving DecidableEq

/-- The image a successful `Image.frombytes("RGB", (w, h), chunk)` call
builds from a correctly sized chunk. -/
def toImage (w h : Nat) (data : List Nat) : Image :=
  { width := w, height := h, pixels := groupRGB (data.take (3 * w * h)) }

/-- PIL `Image.frombytes("RGB", (w, h), data)`: raises `ValueError`
("not enough image data") when the buffer is shorter than `3 * w * h`. -/
def frombytes (w h : Nat) (data : List Nat) : Except PyExc Image :=
  if data.length < 3 * w * h then Except.error PyExc.valueError
  else Except.ok (toImage w h data)

/-- A work-queue item: `(frame_index, (previous_image, image), processing_settings)`,
exactly the 3-tuple `VideoDecoder.run` passes to `processing_queue.put`. -/
abbrev WorkItem (σ : Type) : Type := Nat × (Image × Image) × σ

/-- Which exit the `while self.running` loop took. -/
inductive Termination where
  /-- A read returned zero bytes: `break` after "Decoding queue depleted". -/
  | depleted
  /-- The `while self.running` check observed a cleared flag. -/
  | stopped
  /-- The `except ValueError` clause ran: logged, `break`, nothing stored. -/
  | valueError
  /-- The `except Exception` clause ran: stored in `self.exception`, `break`. -/
  | captured
deriving DecidableEq

/-- What one execution of the loop produced: the items placed on the
processing queue in order, the value stored into `self.exception` (if any),
and which exit was taken. -/
structure LoopOut (σ : Type) where
  items : List (WorkItem σ)
  exception : Option PyExc
  termination : Termination
deriving DecidableEq

/-- The two `except` clauses of `VideoDecoder.run`: `except ValueError`
logs and breaks without storing the exception; `except Exception` stores it
in `self.exception` and breaks. -/
def handleExc {σ : Type} (e : PyExc) : LoopOut σ :=
  match e with
  | PyExc.valueError => { items := [], exception := none, termination := Termination.valueError }
  | e => { items := [], exception := some e, termination := Termination.captured }

/-- Whether the `while self.running` check before iteration `i` observes the
flag cleared by a concurrent `stop()` call (`some s` = first cleared check
is the one before iteration `s`). -/
def stopObserved : Option Nat → Nat → Bool
  | none, _ => false
  | some s, i => decide (s ≤ i)

/-- The `while self.running` loop of `VideoDecoder.run`, one fuel unit per
iteration.  Arguments past the schedules: remaining fuel, the unread rest of
the decode process's stdout, the current `frame_index`, and `previous_image`.
With fuel `stream.length + 1` the fuel case is unreachable, since every
iteration that recurses consumes at least one byte. -/
def runLoop {σ : Type} (w h : Nat) (settings : σ) (readFaults putFaults : List (Nat × PyExc))
    (stopFrom : Option Nat) : Nat → List Nat → Nat → Option Image → LoopOut σ
  | 0, _, _, _ => { items := [], exception := none, termination := Termination.stopped }
  | fuel + 1, stream, i, prev =>
    if stopObserved stopFrom i then
      { items := [], exception := none, termination := Termination.stopped }
    else
      match List.lookup i readFaults with
      | some e => handleExc e
      | none =>
        -- buffer = self.decoder.stdout.read(3 * width * height)
        let buffer := stream.take (3 * w * h)
        if buffer.length = 0 then
          -- source depleted (decoding finished)
          { items := [], exception := none, termination := Termination.depleted }
        else
          match frombytes w h buffer with
          | Except.error e => handleExc e
          | Except.ok image =>
            match prev with
            | none =>
              -- first frame: no "previous image", nothing is enqueued
              runLoop w h settings readFaults putFaults stopFrom fuel
                (stream.drop (3 * w * h)) (i + 1) (some image)
            | some p =>
              match List.lookup i putFaults with
              | some e => handleExc e
              | none =>
                let rest := runLoop w h settings readFaults putFaults stopFrom fuel
                  (stream.drop (3 * w * h)) (i + 1) (some image)
                { items := (i, (p, image), settings) :: rest.items,
                  exception := rest.exception,
                  termination := rest.termination }

/-- The handle returned by `subprocess.Popen`: process id, whether it was
ever forcibly killed, and whether it has been waited on (reaped). -/
structure ProcHandle where
  pid : Nat
  killed : Bool
  waited : Bool
deriving DecidableEq

/-- `Popen.wait()`: reap the process. -/
def ProcHandle.wait (p : ProcHandle) : ProcHandle :=
  { p with waited := true }

/-- The fields of a `VideoDecoder` instance relevant to the claims. -/
structure VideoDecoder (σ : Type) where
  running : Bool
  input_width : Nat
  input_height : Nat
  processing_settings : σ
  exception : Option PyExc
  decoder : ProcHandle
deriving DecidableEq

/-- `VideoDecoder.stop`: `self.running = False` and nothing else; in
particular the external process handle is untouched. -/
def VideoDecoder.stop {σ : Type} (d : VideoDecoder σ) : VideoDecoder σ :=
  { d with running := false }

/-- `VideoDecoder.run`: sets `self.running = True`, runs the loop from
`frame_index = 0` with no previous image, stores a captured exception in
`self.exception`, always calls `self.decoder.wait()` after the loop, and
finally sets `self.running = False`.  Returns the updated instance together
with the loop record (whose `items` are what got enqueued, in order). -/
def VideoDecoder.runThread {σ : Type} (d : VideoDecoder σ) (stream : List Nat)
    (readFaults putFaults : List (Nat × PyExc)) (stopFrom : Option Nat) :
    VideoDecoder σ × LoopOut σ :=
  let d1 := { d with running := true }
  let out := runLoop d1.input_width d1.input_height d1.processing_settings
    readFaults putFaults stopFrom (stream.length + 1) stream 0 none
  let d2 := { d1 with exception := match out.exception with
                | some e => some e
                | none => d1.exception }
  let d3 := { d2 with decoder := d2.decoder.wait }
  let d4 := { d3 with running := false }
  (d4, out)

/-- Outcome of the `subprocess.Popen` call in `VideoDecoder.__init__`. -/
inductive SpawnOutcome where
  | started (pid : Nat)
  /-- The binary could not be started (`FileNotFoundError` etc.). -/
  | failed
deriving DecidableEq

/-- `VideoDecoder.__init__`: stores the fields, sets `self.exception = None`,
then calls `subprocess.Popen`.  If `Popen` raises, the exception propagates
to the caller of the constructor (there is no `try` around it); no loop has
started and the caller-supplied processing queue is returned unchanged. -/
def VideoDecoder.init {σ : Type} (spawn : SpawnOutcome) (w h : Nat) (settings : σ)
    (q : List (WorkItem σ)) : Except PyExc (VideoDecoder σ) × List (WorkItem σ) :=
  match spawn with
  | SpawnOutcome.failed => (Except.error PyExc.osError, q)
  | SpawnOutcome.started pid =>
    (Except.ok
      { running := false, input_width := w, input_height := h,
        processing_settings := settings, exception := none,
        decoder := { pid := pid, killed := false, waited := false } }, q)

/-- The module-level `LOGURU_FFMPEG_LOGLEVELS` dict, in source order. -/
def LOGURU_FFMPEG_LOGLEVELS : List (String × String) :=
  [("trace", "trace"),
   ("debug", "debug"),
   ("info", "info"),
   ("success", "info"),
   ("warning", "warning"),
   ("error", "error"),
   ("critical", "fatal")]

/-- Python `str.lower()` restricted to ASCII (all keys involved are ASCII). -/
def pyLower (s : String) : String :=
  String.mk (s.data.map Char.toLower)

/-- The value passed after `-loglevel` when launching ffmpeg:
`LOGURU_FFMPEG_LOGLEVELS.get(os.environ.get("LOGURU_LEVEL", "INFO").lower())`.
The argument is the value of the `LOGURU_LEVEL` environment variable
(`none` when unset).  Note `dict.get` is called with no default, so an
unrecognized host level produces `None`. -/
def ffmpegLoglevel (loguruLevel : Option String) : Option String :=
  List.lookup (pyLower (loguruLevel.getD ("INFO"))) LOGURU_FFMPEG_LOGLEVELS

/-- Items the loop enqueues while consuming the frame list `frames`, given
the current `frame_index` and `previous_image`; mirrors the pairing logic of
the loop body. -/
def pairItems {σ : Type} (w h : Nat) (settings : σ) :
    Nat → Option Image → List (List Nat) → List (WorkItem σ)
  | _, _, [] => []
  | i, none, f :: rest =>
    pairItems w h settings (i + 1) (some (toImage w h f)) rest
  | i, some p, f :: rest =>
    (i, (p, toImage w h f), settings) :: pairItems w h settings (i + 1) (some (toImage w h f)) rest

/-- The `previous_image` slot after consuming the frame list `frames`. -/
def pairPrev (w h : Nat) : Option Image → List (List Nat) → Option Image
  | prev, [] => prev
  | _, f :: rest => pairPrev w h (some (toImage w h f)) rest

/-- Modelled from the spec's words, for comparison with the code: for a
stream of `N` complete frames the emitted work items are, for each `k` in
`1 .. N-1` in increasing order, the 3-tuple
`(k, (frame (k-1), frame k), processing_settings)`. -/
def specWorkItems {σ : Type} (w h : Nat) (settings : σ) (frames : List (List Nat)) :
    List (WorkItem σ) :=
  (List.range' 1 (frames.length - 1)).map fun k =>
    (k, (toImage w h (frames.getD (k - 1) []), toImage w h (frames.getD k [])), settings)

/-- A concrete 1x1 decoder instance used by witnesses and counterexamples. -/
def sampleDecoder : VideoDecoder Nat :=
  { running := false, input_width := 1, input_height := 1,
    processing_settings := 7, exception := none,
    decoder := { pid := 42, killed := false, waited := false } }

end Video2x

namespace Video2x

/-- A correctly sized chunk is decoded without error into `toImage`. -/
theorem frombytes_ok {w h : Nat} {chunk : List Nat}
    (hc : chunk.length = 3 * w * h) :
    frombytes w h chunk = Except.ok (toImage w h chunk) := by
  simp [frombytes, hc]

/-- Flattening a list of pixels grouped from a byte buffer whose length is a
multiple of three recovers the buffer. -/
theorem bytesOfPixels_groupRGB :
    ∀ l : List Nat, l.length % 3 = 0 → bytesOfPixels (groupRGB l) = l
  | [], _ => rfl
  | [a], h => by simp at h
  | [a, b], h => by simp at h
  | a :: b :: c :: rest, h => by
    have hr : rest.length % 3 = 0 := by
      simp [List.length_cons] at h
      omega
    simp [groupRGB, bytesOfPixels, bytesOfPixels_groupRGB rest hr]

/-- Length of the flattening of a list of equal-length frames. -/
theorem uniform_flatten_length {n : Nat} :
    ∀ L : List (List Nat), (∀ f ∈ L, f.length = n) → L.flatten.length = L.length * n := by
  intro L
  induction L with
  | nil => intro _; simp
  | cons f fr ih =>
    intro hf
    have hfl : f.length = n := hf f (List.mem_cons_self f fr)
    have : ∀ g ∈ fr, g.length = n := fun g hg => hf g (List.mem_cons_of_mem f hg)
    simp [List.length_append, hfl, ih this, Nat.succ_mul, Nat.add_comm]

/-- With positive fuel, a fault-free unstoppped loop on an empty stream
takes the depleted exit at once. -/
theorem runLoop_nil {σ : Type} (w h : Nat) (s : σ) (k j : Nat) (prev : Option Image) :
    runLoop w h s [] [] none (k + 1) [] j prev
      = { items := [], exception := none, termination := Termination.depleted } := by
  simp [runLoop, stopObserved, List.lookup]

/-- With positive fuel, a fault-free unstopped loop on a nonempty stream
shorter than one frame takes the `ValueError` exit at once, storing
nothing. -/
theorem runLoop_short {σ : Type} (w h : Nat) (s : σ) (k j : Nat) (prev : Option Image)
    (t : List Nat) (ht0 : t ≠ []) (ht : t.length < 3 * w * h) :
    runLoop w h s [] [] none (k + 1) t j prev
      = { items := [], exception := none, termination := Termination.valueError } := by
  have htake : t.take (3 * w * h) = t := List.take_of_length_le (Nat.le_of_lt ht)
  have hlen : t.length ≠ 0 := by
    simpa [List.length_eq_zero] using ht0
  rw [runLoop]
  simp only [stopObserved, List.lookup, htake]
  rw [if_neg hlen]
  have hfb : frombytes w h t = Except.error PyExc.valueError := by
    simp [frombytes, ht]
  rw [hfb]
  cases prev <;> rfl

/-- Projection: the error slot after `run` is the captured loop exception
when there is one, and the pre-existing slot value otherwise. -/
theorem runThread_fst_exception {σ : Type} (d : VideoDecoder σ) (x : List Nat)
    (rf pf : List (Nat × PyExc)) (sf : Option Nat) :
    (d.runThread x rf pf sf).1.exception
      = match (d.runThread x rf pf sf).2.exception with
        | some e => some e
        | none => d.exception := rfl

/-- Projection: after `run`, the process handle is the original one with
`wait()` applied. -/
theorem runThread_fst_decoder {σ : Type} (d : VideoDecoder σ) (x : List Nat)
    (rf pf : List (Nat × PyExc)) (sf : Option Nat) :
    (d.runThread x rf pf sf).1.decoder = d.decoder.wait := rfl

/-- Projection: the loop record of `run` is `runLoop` started at
`frame_index = 0` with no previous image and sufficient fuel. -/
theorem runThread_snd {σ : Type} (d : VideoDecoder σ) (x : List Nat)
    (rf pf : List (Nat × PyExc)) (sf : Option Nat) :
    (d.runThread x rf pf sf).2
      = runLoop d.input_width d.input_height d.processing_settings rf pf sf
          (x.length + 1) x 0 none := rfl

/-- C9: for every correctly sized chunk of exactly `width*height*3` bytes,
`Image.frombytes` succeeds and serializing the resulting image back with
`tobytes` returns the original chunk byte-for-byte. -/
theorem frombytes_roundtrip (w h : Nat) (chunk : List Nat)
    (hc : chunk.length = 3 * w * h) :
    frombytes w h chunk = Except.ok (toImage w h chunk) ∧
    (toImage w h chunk).tobytes = chunk := by
  constructor
  · exact frombytes_ok hc
  · have htake : chunk.take (3 * w * h) = chunk := by
      rw [← hc]
      exact List.take_length chunk
    have hmod : chunk.length % 3 = 0 := by
      rw [hc, Nat.mul_assoc]
      exact Nat.mul_mod_right 3 (w * h)
    simp [toImage, Image.tobytes, htake, bytesOfPixels_groupRGB chunk hmod]

/-- C9 witness: the 1x1 chunk `[9, 8, 7]` round-trips. -/
theorem frombytes_roundtrip_witness :
    ([9, 8, 7] : List Nat).length = 3 * 1 * 1 ∧
    (frombytes 1 1 [9, 8, 7] = Except.ok (toImage 1 1 [9, 8, 7]) ∧
      (toImage 1 1 [9, 8, 7]).tobytes = [9, 8, 7]) :=
  ⟨by decide, frombytes_roundtrip 1 1 [9, 8, 7] (by decide)⟩

/-- C8: when `subprocess.Popen` cannot start the binary, the constructor
returns the launch error synchronously to its caller, no decoder instance
(and hence no loop thread or error slot) comes into being, and the
caller-supplied processing queue is unchanged. -/
theorem launch_failure_synchronous {σ : Type} (w h : Nat) (settings : σ)
    (q : List (WorkItem σ)) :
    VideoDecoder.init SpawnOutcome.failed w h settings q
      = (Except.error PyExc.osError, q) := rfl

/-- C3 (code bug): the recognized host levels are mapped by the fixed table
(`success ↦ info`, `critical ↦ fatal`, an unset variable defaults to the
host level `INFO` and thus `info`), but an unrecognized host level such as
`notice` makes `dict.get` return `None` — not `info` as the spec states —
because the lookup is performed with no default argument. -/
theorem unrecognized_loglevel_yields_none :
    ffmpegLoglevel (some ("notice")) = none ∧
    ffmpegLoglevel none = some ("info") ∧
    ffmpegLoglevel (some ("TRACE")) = some ("trace") ∧
    ffmpegLoglevel (some ("DEBUG")) = some ("debug") ∧
    ffmpegLoglevel (some ("INFO")) = some ("info") ∧
    ffmpegLoglevel (some ("SUCCESS")) = some ("info") ∧
    ffmpegLoglevel (some ("WARNING")) = some ("warning") ∧
    ffmpegLoglevel (some ("ERROR")) = some ("error") ∧
    ffmpegLoglevel (some ("CRITICAL")) = some ("fatal") := by decide

/-- C7: on every exit of the run loop — clean depletion, stop request,
framing error, or a captured exception, over all streams, fault schedules
and stop schedules — the external decode process is waited on (reaped)
before `run()` returns, and it is the same process (same pid), never
killed by `run` itself. -/
theorem run_always_reaps {σ : Type} (d : VideoDecoder σ) (stream : List Nat)
    (rf pf : List (Nat × PyExc)) (sf : Option Nat) :
    (d.runThread stream rf pf sf).1.decoder.waited = true ∧
    (d.runThread stream rf pf sf).1.decoder.pid = d.decoder.pid ∧
    (d.runThread stream rf pf sf).1.decoder.killed = d.decoder.killed := by
  rw [runThread_fst_decoder]
  exact ⟨rfl, rfl, rfl⟩

/-- C10: a `stop()` issued after construction but before `run()` begins is
lost: `run()` unconditionally sets the running flag on entry, so the whole
execution — items enqueued, error slot, process handle, final state — is
identical to a run with no prior stop request. -/
theorem stop_before_run_lost {σ : Type} (d : VideoDecoder σ) (stream : List Nat)
    (rf pf : List (Nat × PyExc)) (sf : Option Nat) :
    (d.stop).runThread stream rf pf sf = d.runThread stream rf pf sf := by
  cases d
  rfl

end Video2x
namespace Video2x

/-- Master decomposition: a fault-free unstopped loop started on
`frames.flatten ++ rest`, where every element of `frames` is exactly one
frame, consumes one fuel unit and one frame per iteration, enqueues the
pairs `pairItems` describes, and then continues on `rest` with the frame
counter advanced and the last frame (if any) as previous image. -/
theorem runLoop_frames {σ : Type} (w h : Nat) (s : σ) (hn : 0 < 3 * w * h) :
    ∀ (frames : List (List Nat)), (∀ f ∈ frames, f.length = 3 * w * h) →
    ∀ (rest : List Nat) (fuel i : Nat) (prev : Option Image),
    runLoop w h s [] [] none (frames.length + fuel) (frames.flatten ++ rest) i prev =
      { items := pairItems w h s i prev frames ++
          (runLoop w h s [] [] none fuel rest (i + frames.length)
            (pairPrev w h prev frames)).items,
        exception := (runLoop w h s [] [] none fuel rest (i + frames.length)
          (pairPrev w h prev frames)).exception,
        termination := (runLoop w h s [] [] none fuel rest (i + frames.length)
          (pairPrev w h prev frames)).termination } := by
  intro frames
  induction frames with
  | nil =>
    intro _ rest fuel i prev
    simp [pairItems, pairPrev]
  | cons f fr ih =>
    intro hf rest fuel i prev
    have hfl : f.length = 3 * w * h := hf f (List.mem_cons_self f fr)
    have hfr : ∀ g ∈ fr, g.length = 3 * w * h := fun g hg => hf g (List.mem_cons_of_mem f hg)
    rw [List.length_cons, Nat.add_right_comm]
    rw [List.flatten_cons, List.append_assoc]
    rw [runLoop]
    have htake : (f ++ (fr.flatten ++ rest)).take (3 * w * h) = f := by
      rw [← hfl]
      exact List.take_left f (fr.flatten ++ rest)
    have hdrop : (f ++ (fr.flatten ++ rest)).drop (3 * w * h) = fr.flatten ++ rest := by
      rw [← hfl]
      exact List.drop_left f (fr.flatten ++ rest)
    simp only [stopObserved, List.lookup, htake, hdrop, if_false]
    rw [if_neg (show ¬ f.length = 0 by omega)]
    rw [frombytes_ok hfl]
    have hidx : i + (fr.length + 1) = (i + 1) + fr.length := by omega
    cases prev with
    | none =>
      simp only [pairItems, pairPrev, List.length_cons, hidx]
      exact ih hfr rest fuel (i + 1) (some (toImage w h f))
    | some p =>
      simp only [List.lookup, pairItems, pairPrev, List.length_cons, hidx]
      rw [ih hfr rest fuel (i + 1) (some (toImage w h f))]
      simp

end Video2x
namespace Video2x

/-- Closed form for `pairItems` once a previous frame exists: item `k`
pairs position `k - i` of `p :: fr` with position `k - i` of `fr`. -/
theorem pairItems_some {σ : Type} (w h : Nat) (s : σ) :
    ∀ (fr : List (List Nat)) (i : Nat) (p : List Nat),
    pairItems w h s i (some (toImage w h p)) fr
      = (List.range' i fr.length).map fun k =>
          (k, (toImage w h ((p :: fr).getD (k - i) []),
               toImage w h (fr.getD (k - i) [])), s) := by
  intro fr
  induction fr with
  | nil => intro i p; simp [pairItems]
  | cons f fr' ih =>
    intro i p
    rw [List.length_cons, List.range'_succ]
    simp only [List.map_cons, Nat.sub_self, List.getD_cons_zero]
    rw [pairItems, ih (i + 1) f]
    congr 1
    apply List.map_congr_left
    intro k hk
    have hk1 : i + 1 ≤ k := (List.mem_range'_1.1 hk).1
    have h1 : k - i = (k - (i + 1)) + 1 := by omega
    rw [h1, List.getD_cons_succ, List.getD_cons_succ]

/-- The items of a full fault-free run agree with the spec's description of
the emitted work items. -/
theorem pairItems_eq_spec {σ : Type} (w h : Nat) (s : σ) (frames : List (List Nat)) :
    pairItems w h s 0 none frames = specWorkItems w h s frames := by
  cases frames with
  | nil => simp [pairItems, specWorkItems]
  | cons f fr =>
    rw [pairItems, pairItems_some w h s fr 1 f]
    rw [specWorkItems]
    simp only [List.length_cons, Nat.add_sub_cancel]
    apply List.map_congr_left
    intro k hk
    have hk1 : 1 ≤ k := (List.mem_range'_1.1 hk).1
    obtain ⟨m, rfl⟩ : ∃ m, k = m + 1 := ⟨k - 1, by omega⟩
    simp [List.getD_cons_succ]

/-- A fault-free unstopped run over exactly the frames `frames` (each of
full size): the loop record is the paired items, no exception, depleted. -/
theorem runThread_full {σ : Type} (d : VideoDecoder σ) (frames : List (List Nat))
    (hw : 0 < d.input_width) (hh : 0 < d.input_height)
    (hf : ∀ f ∈ frames, f.length = 3 * d.input_width * d.input_height) :
    (d.runThread frames.flatten [] [] none).2
      = { items := pairItems d.input_width d.input_height d.processing_settings 0 none frames,
          exception := none, termination := Termination.depleted } := by
  have hn : 0 < 3 * d.input_width * d.input_height := by positivity
  have hjoin : frames.flatten.length = frames.length * (3 * d.input_width * d.input_height) :=
    uniform_flatten_length frames hf
  have hle : frames.length ≤ frames.flatten.length := by
    rw [hjoin]
    calc frames.length = frames.length * 1 := by omega
    _ ≤ frames.length * (3 * d.input_width * d.input_height) :=
        Nat.mul_le_mul_left frames.length hn
  rw [runThread_snd]
  have hm := runLoop_frames d.input_width d.input_height d.processing_settings hn frames hf
    [] (frames.flatten.length + 1 - frames.length) 0 none
  rw [List.append_nil] at hm
  have hfuel : frames.length + (frames.flatten.length + 1 - frames.length)
      = frames.flatten.length + 1 := by omega
  rw [hfuel] at hm
  rw [hm]
  have hrest : frames.flatten.length + 1 - frames.length
      = (frames.flatten.length - frames.length) + 1 := by omega
  rw [hrest, runLoop_nil]
  simp

/-- A fault-free unstopped run over the frames `frames` followed by a
nonempty tail shorter than one frame: the loop record is the paired items
of the complete frames, no exception stored, `ValueError` exit. -/
theorem runThread_short_tail {σ : Type} (d : VideoDecoder σ) (frames : List (List Nat))
    (t : List Nat)
    (hw : 0 < d.input_width) (hh : 0 < d.input_height)
    (hf : ∀ f ∈ frames, f.length = 3 * d.input_width * d.input_height)
    (ht0 : t ≠ []) (ht : t.length < 3 * d.input_width * d.input_height) :
    (d.runThread (frames.flatten ++ t) [] [] none).2
      = { items := pairItems d.input_width d.input_height d.processing_settings 0 none frames,
          exception := none, termination := Termination.valueError } := by
  have hn : 0 < 3 * d.input_width * d.input_height := by positivity
  have hjoin : frames.flatten.length = frames.length * (3 * d.input_width * d.input_height) :=
    uniform_flatten_length frames hf
  have hle : frames.length ≤ frames.flatten.length := by
    rw [hjoin]
    calc frames.length = frames.length * 1 := by omega
    _ ≤ frames.length * (3 * d.input_width * d.input_height) :=
        Nat.mul_le_mul_left frames.length hn
  rw [runThread_snd]
  have hlen : (frames.flatten ++ t).length = frames.flatten.length + t.length :=
    List.length_append frames.flatten t
  have hm := runLoop_frames d.input_width d.input_height d.processing_settings hn frames hf
    t ((frames.flatten ++ t).length + 1 - frames.length) 0 none
  have hfuel : frames.length + ((frames.flatten ++ t).length + 1 - frames.length)
      = (frames.flatten ++ t).length + 1 := by omega
  rw [hfuel] at hm
  rw [hm]
  have hrest : (frames.flatten ++ t).length + 1 - frames.length
      = ((frames.flatten ++ t).length - frames.length) + 1 := by omega
  rw [hrest, runLoop_short d.input_width d.input_height d.processing_settings
    _ _ _ t ht0 ht]
  simp

end Video2x
namespace Video2x

/-- The check before iteration `i` does not yet see a stop scheduled for `sp > i`. -/
theorem stopObserved_lt {sp i : Nat} (h : i < sp) : stopObserved (some sp) i = false := by
  simp only [stopObserved, decide_eq_false_iff_not]
  omega

/-- A loop whose stop point is already past produces no items. -/
theorem runLoop_stopped_nil {σ : Type} (w h : Nat) (s : σ) (rf pf : List (Nat × PyExc))
    (fuel : Nat) (stream : List Nat) (i sp : Nat) (prev : Option Image) (hsp : sp ≤ i) :
    (runLoop w h s rf pf (some sp) fuel stream i prev).items = [] := by
  cases fuel with
  | zero => simp [runLoop]
  | succ fuel => simp [runLoop, stopObserved, hsp]

/-- Invariant of the loop: something is stored in the error slot exactly
when the loop took the `except Exception` (captured) exit. -/
theorem runLoop_exc_iff {σ : Type} (w h : Nat) (s : σ) (rf pf : List (Nat × PyExc))
    (sf : Option Nat) (fuel : Nat) :
    ∀ (stream : List Nat) (i : Nat) (prev : Option Image),
    ((runLoop w h s rf pf sf fuel stream i prev).exception.isSome = true)
      ↔ (runLoop w h s rf pf sf fuel stream i prev).termination = Termination.captured := by
  induction fuel with
  | zero =>
    intro stream i prev
    simp [runLoop]
  | succ fuel ih =>
    intro stream i prev
    simp only [runLoop]
    split
    · simp
    · split
      · rename_i e _
        cases e <;> simp [handleExc]
      · split
        · simp
        · split
          · rename_i e _
            cases e <;> simp [handleExc]
          · split
            · exact ih _ _ _
            · split
              · rename_i e _
                cases e <;> simp [handleExc]
              · exact ih _ _ _

/-- Every item the loop enqueues carries a sequence index at least the
current frame index. -/
theorem runLoop_items_ge {σ : Type} (w h : Nat) (s : σ) (rf pf : List (Nat × PyExc))
    (sf : Option Nat) (fuel : Nat) :
    ∀ (stream : List Nat) (i : Nat) (prev : Option Image),
    ∀ it ∈ (runLoop w h s rf pf sf fuel stream i prev).items, i ≤ it.1 := by
  induction fuel with
  | zero =>
    intro stream i prev it hit
    simp [runLoop] at hit
  | succ fuel ih =>
    intro stream i prev it hit
    simp only [runLoop] at hit
    split at hit
    · simp at hit
    · split at hit
      · rename_i e _
        cases e <;> simp [handleExc] at hit
      · split at hit
        · simp at hit
        · split at hit
          · rename_i e _
            cases e <;> simp [handleExc] at hit
          · split at hit
            · exact Nat.le_of_succ_le (ih _ _ _ it hit)
            · split at hit
              · rename_i e _
                cases e <;> simp [handleExc] at hit
              · simp only [List.mem_cons] at hit
                rcases hit with rfl | hit
                · exact Nat.le_refl i
                · exact Nat.le_of_succ_le (ih _ _ _ it hit)

/-- The items of a run stopped from check `sp` are exactly the items of the
unstopped run whose sequence index is below `sp`. -/
theorem runLoop_stop_filter {σ : Type} (w h : Nat) (s : σ) (rf pf : List (Nat × PyExc))
    (sp : Nat) (fuel : Nat) :
    ∀ (stream : List Nat) (i : Nat) (prev : Option Image),
    (runLoop w h s rf pf (some sp) fuel stream i prev).items
      = ((runLoop w h s rf pf none fuel stream i prev).items).filter
          (fun it => it.1 < sp) := by
  induction fuel with
  | zero =>
    intro stream i prev
    simp [runLoop]
  | succ fuel ih =>
    intro stream i prev
    by_cases hsp : sp ≤ i
    · rw [runLoop_stopped_nil w h s rf pf (fuel + 1) stream i sp prev hsp]
      symm
      rw [List.filter_eq_nil_iff]
      intro it hit
      have hge := runLoop_items_ge w h s rf pf none (fuel + 1) stream i prev it hit
      simp only [decide_eq_true_eq]
      omega
    · simp only [runLoop, stopObserved, decide_eq_true_eq, Bool.false_eq_true,
        if_false, if_neg hsp]
      cases hlk : List.lookup i rf with
      | some e => cases e <;> simp [handleExc]
      | none =>
        by_cases hbuf : (stream.take (3 * w * h)).length = 0
        · simp [hbuf]
        · rw [if_neg hbuf, if_neg hbuf]
          cases hfb : frombytes w h (stream.take (3 * w * h)) with
          | error e => cases e <;> simp [handleExc]
          | ok image =>
            cases prev with
            | none => exact ih _ _ _
            | some p =>
              cases hpk : List.lookup i pf with
              | some e => cases e <;> simp [handleExc]
              | none =>
                have hip : i < sp := by omega
                simp [List.filter_cons, hip, ih _ _ _]

/-- Postponing the observed stop by one check enqueues at most one further
item (the one produced by the single additional in-flight iteration). -/
theorem runLoop_stop_succ_le {σ : Type} (w h : Nat) (s : σ) (rf pf : List (Nat × PyExc))
    (sp : Nat) (fuel : Nat) :
    ∀ (stream : List Nat) (i : Nat) (prev : Option Image),
    ((runLoop w h s rf pf (some (sp + 1)) fuel stream i prev).items).length
      ≤ ((runLoop w h s rf pf (some sp) fuel stream i prev).items).length + 1 := by
  induction fuel with
  | zero =>
    intro stream i prev
    simp [runLoop]
  | succ fuel ih =>
    intro stream i prev
    by_cases h1 : sp + 1 ≤ i
    · rw [runLoop_stopped_nil w h s rf pf (fuel + 1) stream i (sp + 1) prev h1]
      simp
    · by_cases h2 : sp ≤ i
      · rw [runLoop_stopped_nil w h s rf pf (fuel + 1) stream i sp prev h2]
        simp only [runLoop, stopObserved, decide_eq_true_eq, if_neg h1]
        cases hlk : List.lookup i rf with
        | some e => cases e <;> simp [handleExc]
        | none =>
          by_cases hbuf : (stream.take (3 * w * h)).length = 0
          · simp [hbuf]
          · rw [if_neg hbuf]
            cases hfb : frombytes w h (stream.take (3 * w * h)) with
            | error e => cases e <;> simp [handleExc]
            | ok image =>
              cases prev with
              | none =>
                rw [runLoop_stopped_nil w h s rf pf fuel
                  (stream.drop (3 * w * h)) (i + 1) (sp + 1) (some image) (by omega)]
                simp
              | some p =>
                cases hpk : List.lookup i pf with
                | some e => cases e <;> simp [handleExc]
                | none =>
                  have hnil := runLoop_stopped_nil w h s rf pf fuel
                    (stream.drop (3 * w * h)) (i + 1) (sp + 1) (some image) (by omega)
                  simp [hnil]
      · simp only [runLoop, stopObserved, decide_eq_true_eq, if_neg h1, if_neg h2]
        cases hlk : List.lookup i rf with
        | some e => cases e <;> simp [handleExc]
        | none =>
          by_cases hbuf : (stream.take (3 * w * h)).length = 0
          · simp [hbuf]
          · rw [if_neg hbuf, if_neg hbuf]
            cases hfb : frombytes w h (stream.take (3 * w * h)) with
            | error e => cases e <;> simp [handleExc]
            | ok image =>
              cases prev with
              | none => exact ih _ _ _
              | some p =>
                cases hpk : List.lookup i pf with
                | some e => cases e <;> simp [handleExc]
                | none =>
                  simp only [List.length_cons]
                  exact Nat.succ_le_succ (ih _ _ _)

end Video2x
namespace Video2x

/-- C1: for positive frame geometry and a stream of exactly `N` complete
frames, the run loop enqueues exactly `max(N-1, 0)` work items, in order of
strictly increasing sequence index `1 .. N-1` with no gaps, where item `k`
is the 3-tuple `(k, (frame (k-1), frame k), processing_settings)` and no
item with index `0` is ever enqueued. -/
theorem run_emits_pairs_spec {σ : Type} (d : VideoDecoder σ) (frames : List (List Nat))
    (hw : 0 < d.input_width) (hh : 0 < d.input_height)
    (hf : ∀ f ∈ frames, f.length = 3 * d.input_width * d.input_height) :
    (d.runThread frames.flatten [] [] none).2.items
        = specWorkItems d.input_width d.input_height d.processing_settings frames ∧
    ((d.runThread frames.flatten [] [] none).2.items).length = frames.length - 1 ∧
    ((d.runThread frames.flatten [] [] none).2.items).map Prod.fst
        = List.range' 1 (frames.length - 1) ∧
    (∀ it ∈ (d.runThread frames.flatten [] [] none).2.items, 1 ≤ it.1) := by
  have hitems : (d.runThread frames.flatten [] [] none).2.items
      = specWorkItems d.input_width d.input_height d.processing_settings frames := by
    rw [runThread_full d frames hw hh hf]
    exact pairItems_eq_spec _ _ _ frames
  refine ⟨hitems, ?_, ?_, ?_⟩
  · rw [hitems]
    simp [specWorkItems]
  · rw [hitems]
    simp only [specWorkItems, List.map_map]
    exact (List.map_congr_left fun a _ => rfl).trans (List.map_id' _)
  · rw [hitems]
    intro it hit
    simp only [specWorkItems, List.mem_map, List.mem_range'_1] at hit
    obtain ⟨k, ⟨hk1, _⟩, rfl⟩ := hit
    exact hk1

/-- C1 witness: a 1x1 decoder on three concrete frames. -/
theorem run_emits_pairs_spec_witness :
    0 < sampleDecoder.input_width ∧ 0 < sampleDecoder.input_height ∧
    (∀ f ∈ [[1,2,3],[4,5,6],[7,8,9]],
      List.length f = 3 * sampleDecoder.input_width * sampleDecoder.input_height) ∧
    ((sampleDecoder.runThread ([[1,2,3],[4,5,6],[7,8,9]] : List (List Nat)).flatten [] [] none).2.items
        = specWorkItems sampleDecoder.input_width sampleDecoder.input_height
            sampleDecoder.processing_settings [[1,2,3],[4,5,6],[7,8,9]] ∧
      ((sampleDecoder.runThread ([[1,2,3],[4,5,6],[7,8,9]] : List (List Nat)).flatten [] [] none).2.items).length
        = List.length [[1,2,3],[4,5,6],[7,8,9]] - 1 ∧
      ((sampleDecoder.runThread ([[1,2,3],[4,5,6],[7,8,9]] : List (List Nat)).flatten [] [] none).2.items).map Prod.fst
        = List.range' 1 (List.length [[1,2,3],[4,5,6],[7,8,9]] - 1) ∧
      (∀ it ∈ (sampleDecoder.runThread ([[1,2,3],[4,5,6],[7,8,9]] : List (List Nat)).flatten [] [] none).2.items,
        1 ≤ it.1)) :=
  ⟨by decide, by decide, by decide,
    run_emits_pairs_spec sampleDecoder [[1,2,3],[4,5,6],[7,8,9]]
      (by decide) (by decide) (by decide)⟩

/-- C5: a stream that is an exact multiple of the frame size (any list of
complete frames, including none) ends in the depleted exit — the first
zero-byte read stops the loop — with nothing in the last-error slot. -/
theorem full_frames_depleted {σ : Type} (d : VideoDecoder σ) (frames : List (List Nat))
    (hw : 0 < d.input_width) (hh : 0 < d.input_height)
    (hf : ∀ f ∈ frames, f.length = 3 * d.input_width * d.input_height)
    (h0 : d.exception = none) :
    (d.runThread frames.flatten [] [] none).2.termination = Termination.depleted ∧
    (d.runThread frames.flatten [] [] none).1.exception = none := by
  have hout := runThread_full d frames hw hh hf
  constructor
  · rw [hout]
  · rw [runThread_fst_exception, hout]
    exact h0

/-- C5 witness: the empty stream (zero frames) on a 1x1 decoder. -/
theorem full_frames_depleted_witness :
    0 < sampleDecoder.input_width ∧ 0 < sampleDecoder.input_height ∧
    (∀ f ∈ ([] : List (List Nat)),
      List.length f = 3 * sampleDecoder.input_width * sampleDecoder.input_height) ∧
    sampleDecoder.exception = none ∧
    ((sampleDecoder.runThread ([] : List (List Nat)).flatten [] [] none).2.termination
        = Termination.depleted ∧
      (sampleDecoder.runThread ([] : List (List Nat)).flatten [] [] none).1.exception = none) :=
  ⟨by decide, by decide, by decide, by decide,
    full_frames_depleted sampleDecoder [] (by decide) (by decide) (by decide) (by decide)⟩

/-- C2 counterexample: a 1x1 decoder whose stream is two bytes — zero
complete frames followed by a two-byte trailing tail.  The loop does take
the framing-error (`ValueError`) exit and enqueues nothing, but contrary to
the claim no `InsufficientFrameDataError` is captured: the last-error slot
is still `None` after `run()` returns, because the `except ValueError`
clause only logs and breaks. -/
theorem short_tail_error_not_captured_cex :
    (sampleDecoder.runThread [5, 5] [] [] none).1.exception = none ∧
    (sampleDecoder.runThread [5, 5] [] [] none).2.termination = Termination.valueError ∧
    (sampleDecoder.runThread [5, 5] [] [] none).2.items = [] := by decide

/-- C2 (amended): for every stream of complete frames followed by a
nonempty trailing tail shorter than one frame, the run loop stops reading
via the framing-error (`ValueError`) exit, the partial frame is never
enqueued (the items are exactly the pairs of the complete frames), but the
error is only logged, not captured: the last-error slot stays `None`. -/
theorem short_tail_stops_without_capture {σ : Type} (d : VideoDecoder σ)
    (frames : List (List Nat)) (t : List Nat)
    (hw : 0 < d.input_width) (hh : 0 < d.input_height)
    (hf : ∀ f ∈ frames, f.length = 3 * d.input_width * d.input_height)
    (ht0 : t ≠ []) (ht : t.length < 3 * d.input_width * d.input_height)
    (h0 : d.exception = none) :
    (d.runThread (frames.flatten ++ t) [] [] none).2.termination = Termination.valueError ∧
    (d.runThread (frames.flatten ++ t) [] [] none).1.exception = none ∧
    (d.runThread (frames.flatten ++ t) [] [] none).2.items
      = specWorkItems d.input_width d.input_height d.processing_settings frames := by
  have hout := runThread_short_tail d frames t hw hh hf ht0 ht
  refine ⟨?_, ?_, ?_⟩
  · rw [hout]
  · rw [runThread_fst_exception, hout]
    exact h0
  · rw [hout]
    exact pairItems_eq_spec _ _ _ frames

/-- C2 amended witness: one complete 1x1 frame and a one-byte tail. -/
theorem short_tail_stops_without_capture_witness :
    0 < sampleDecoder.input_width ∧ 0 < sampleDecoder.input_height ∧
    (∀ f ∈ [[1,2,3]],
      List.length f = 3 * sampleDecoder.input_width * sampleDecoder.input_height) ∧
    ([9] : List Nat) ≠ [] ∧
    ([9] : List Nat).length < 3 * sampleDecoder.input_width * sampleDecoder.input_height ∧
    sampleDecoder.exception = none ∧
    ((sampleDecoder.runThread (([[1,2,3]] : List (List Nat)).flatten ++ [9]) [] [] none).2.termination
        = Termination.valueError ∧
      (sampleDecoder.runThread (([[1,2,3]] : List (List Nat)).flatten ++ [9]) [] [] none).1.exception
        = none ∧
      (sampleDecoder.runThread (([[1,2,3]] : List (List Nat)).flatten ++ [9]) [] [] none).2.items
        = specWorkItems sampleDecoder.input_width sampleDecoder.input_height
            sampleDecoder.processing_settings [[1,2,3]]) :=
  ⟨by decide, by decide, by decide, by decide, by decide, by decide,
    short_tail_stops_without_capture sampleDecoder [[1,2,3]] [9]
      (by decide) (by decide) (by decide) (by decide) (by decide) (by decide)⟩

end Video2x
namespace Video2x

/-- C4 counterexample: a 1x1 decoder reading a one-byte stream.  The read
returns a short chunk, `Image.frombytes` fails (a failure arising inside
the run loop), the loop terminates through the `except ValueError` clause —
yet after `run()` returns the last-error slot is `None`: this failure was
never captured into `self.exception`, contrary to the claim. -/
theorem valueerror_not_captured_cex :
    (sampleDecoder.runThread [1] [] [] none).2.termination = Termination.valueError ∧
    (sampleDecoder.runThread [1] [] [] none).1.exception = none := by decide

/-- C4 (amended): no failure arising inside the run loop propagates past
`run()` (the model returns a value for every stream, fault schedule and
stop schedule), and the last-error slot is written exactly on the
`except Exception` exit: after `run()` returns, the slot is non-empty iff
the loop terminated through the capturing handler; a `ValueError` failure
(such as a short frame) terminates the loop with the slot still `None`. -/
theorem run_exception_policy {σ : Type} (d : VideoDecoder σ) (stream : List Nat)
    (rf pf : List (Nat × PyExc)) (sf : Option Nat) (h0 : d.exception = none) :
    (((d.runThread stream rf pf sf).1.exception).isSome = true
        ↔ (d.runThread stream rf pf sf).2.termination = Termination.captured) ∧
    ((d.runThread stream rf pf sf).2.termination = Termination.valueError →
        (d.runThread stream rf pf sf).1.exception = none) := by
  have hiff := runLoop_exc_iff d.input_width d.input_height d.processing_settings rf pf sf
    (stream.length + 1) stream 0 none
  rw [← runThread_snd] at hiff
  have hexc : (d.runThread stream rf pf sf).1.exception
      = (d.runThread stream rf pf sf).2.exception := by
    rw [runThread_fst_exception]
    cases (d.runThread stream rf pf sf).2.exception with
    | some e => rfl
    | none => exact h0
  constructor
  · rw [hexc]
    exact hiff
  · intro hterm
    rw [hexc]
    cases hoe : (d.runThread stream rf pf sf).2.exception with
    | none => rfl
    | some e =>
      have : (d.runThread stream rf pf sf).2.termination = Termination.captured := by
        apply hiff.1
        rw [hoe]
        rfl
      rw [hterm] at this
      exact absurd this (by simp)

/-- C4 witness: a read fault at iteration 1 of a 1x1 decoder is captured. -/
theorem run_exception_policy_witness :
    sampleDecoder.exception = none ∧
    ((((sampleDecoder.runThread [1,2,3,4,5,6] [(1, PyExc.osError)] [] none).1.exception).isSome = true
        ↔ (sampleDecoder.runThread [1,2,3,4,5,6] [(1, PyExc.osError)] [] none).2.termination
            = Termination.captured) ∧
      ((sampleDecoder.runThread [1,2,3,4,5,6] [(1, PyExc.osError)] [] none).2.termination
          = Termination.valueError →
        (sampleDecoder.runThread [1,2,3,4,5,6] [(1, PyExc.osError)] [] none).1.exception = none)) :=
  ⟨by decide,
    run_exception_policy sampleDecoder [1,2,3,4,5,6] [(1, PyExc.osError)] [] none (by decide)⟩

/-- C6: `stop()` only clears the running flag — the process handle is left
exactly as it was, never killed.  A stop request observed at the check
before iteration `s` (i.e. issued while iteration `s - 1` was in flight)
leaves on the queue exactly the items of the unstopped run with sequence
index below `s` — so the loop finishes its in-flight cycle and enqueues
nothing further — and delaying the observed stop by one full iteration
adds at most one item. -/
theorem stop_cooperative_shutdown {σ : Type} (d : VideoDecoder σ) (stream : List Nat)
    (rf pf : List (Nat × PyExc)) (s : Nat) :
    (d.stop).running = false ∧
    (d.stop).decoder = d.decoder ∧
    (d.stop).decoder.killed = d.decoder.killed ∧
    (d.runThread stream rf pf (some s)).2.items
      = ((d.runThread stream rf pf none).2.items).filter (fun it => it.1 < s) ∧
    ((d.runThread stream rf pf (some (s + 1))).2.items).length
      ≤ ((d.runThread stream rf pf (some s)).2.items).length + 1 := by
  refine ⟨rfl, rfl, rfl, ?_, ?_⟩
  · rw [runThread_snd, runThread_snd]
    exact runLoop_stop_filter d.input_width d.input_height d.processing_settings rf pf s
      (stream.length + 1) stream 0 none
  · rw [runThread_snd, runThread_snd]
    exact runLoop_stop_succ_le d.input_width d.input_height d.processing_settings rf pf s
      (stream.length + 1) stream 0 none

end Video2x
